import Mathlib

/-!
Verification development for the WooCommerce SEO optimization pipeline
(backend: `models.py`, `keyword_research.py`, `worker.py`, `wp_api.py`).

The Python source is shallowly embedded: pure helper functions become Lean
functions over `List Char` / `String`; the stateful orchestrator becomes
explicit state passing; fallible external collaborators (WordPress catalog
client, OpenAI completions, pytrends) are abstracted as `Except`-valued
environment functions, mirroring the places where the source wraps calls in
`try`/`except`.
-/

namespace WooSeo

/-! ## Python string semantics helpers

These model the CPython string operations used by the source
(`str.split`, `str.lower`, `str.replace` with one-char arguments,
`' '.join`), executably over `List Char`. -/

/-- Lowercase one ASCII character, as `str.lower` does per character. -/
def lowerChar (c : Char) : Char :=
  if 'A' ≤ c && c ≤ 'Z' then Char.ofNat (c.toNat + 32) else c

/-- Model of Python `s.lower()` (ASCII range). -/
def pyLower (s : String) : String :=
  String.mk (s.toList.map lowerChar)

/-- Split a character list at every occurrence of `sep`, keeping empty pieces
(Python `s.split(sep)` semantics for a one-character separator). -/
def splitCharList (sep : Char) : List Char → List (List Char)
  | [] => [[]]
  | c :: rest =>
    let r := splitCharList sep rest
    if c = sep then [] :: r
    else
      match r with
      | [] => [[c]]
      | g :: gs => (c :: g) :: gs

/-- Model of Python `s.split(sep)` for a one-character separator. -/
def pySplitOn (sep : Char) (s : String) : List String :=
  (splitCharList sep s.toList).map String.mk

/-- Model of Python `s.split()` with no argument: split on whitespace and
drop empty pieces (spaces are the only whitespace the source data uses). -/
def pySplit (s : String) : List String :=
  (pySplitOn ' ' s).filter (fun w => w ≠ "")

/-- Model of Python `s.replace(old, new)` where both arguments are single
characters (the source only uses `replace('-', ' ')`). -/
def pyReplaceChar (old new : String) (s : String) : String :=
  match old.toList, new.toList with
  | [o], [n] => String.mk (s.toList.map (fun c => if c = o then n else c))
  | _, _ => s

/-- Model of Python `' '.join(parts)`. -/
def joinSpace : List String → String
  | [] => ""
  | [x] => x
  | x :: xs => x ++ " " ++ joinSpace xs

/-- First-occurrence deduplication; models the source's explicit
seen-set loops (and `list(set(..))`, whose order we fix to first
occurrence). -/
def dedupFirstBy {α : Type} (key : α → String) : List α → List String → List α
  | [], _ => []
  | x :: xs, seen =>
    if key x ∈ seen then dedupFirstBy key xs seen
    else x :: dedupFirstBy key xs (key x :: seen)

/-- Bool-valued substring test, modelling Python `needle in hay`. -/
def strContainsSub (hay needle : String) : Bool :=
  go needle.toList hay.toList
where
  go (sub : List Char) : List Char → Bool
    | [] => sub.isEmpty
    | c :: cs => sub.isPrefixOf (c :: cs) || go sub cs

/-! ## Timestamps and ISO 8601 serialization (`models.py`)

`OptimizationResult.timestamp` is a `datetime`; `save_history` persists it
via `timestamp.isoformat()` and `load_history` restores it via
`datetime.fromisoformat`.  We embed `datetime` as a seven-field record and
the ISO string as its list of character codes (digits `48..57`, `'-'` 45,
`':'` 58, `'T'` 84, `'.'` 46), exactly the `YYYY-MM-DDTHH:MM:SS[.ffffff]`
layout `isoformat` produces (fractional part present iff microsecond ≠ 0). -/

structure DateTime where
  year : Nat
  month : Nat
  day : Nat
  hour : Nat
  minute : Nat
  second : Nat
  microsecond : Nat
deriving DecidableEq, Repr

/-- Field bounds under which a `DateTime` renders into the fixed-width ISO
layout (every value produced by Python `datetime` satisfies them). -/
def validDT (t : DateTime) : Prop :=
  t.year < 10 ^ 4 ∧ t.month < 10 ^ 2 ∧ t.day < 10 ^ 2 ∧ t.hour < 10 ^ 2 ∧
    t.minute < 10 ^ 2 ∧ t.second < 10 ^ 2 ∧ t.microsecond < 10 ^ 6

instance (t : DateTime) : Decidable (validDT t) := by
  unfold validDT
  infer_instance

/-- Zero-padded decimal rendering of `n` to width `w`, as character codes
(`"%0wd"`). -/
def fieldCodes (w n : Nat) : List Nat :=
  let ds := (Nat.digits 10 n).reverse
  (List.replicate (w - ds.length) 0 ++ ds).map (fun d => 48 + d)

/-- Numeric value of a run of decimal character codes. -/
def codesVal (cs : List Nat) : Nat :=
  Nat.ofDigits 10 ((cs.map (fun c => c - 48)).reverse)

/-- Test for a decimal digit character code. -/
def isDigitCode (c : Nat) : Bool :=
  48 ≤ c && c ≤ 57

/-- Consume exactly `w` digit codes from the front, returning their value and
the remainder. -/
def readField (w : Nat) (cs : List Nat) : Option (Nat × List Nat) :=
  let pre := cs.take w
  if pre.length = w && pre.all isDigitCode then some (codesVal pre, cs.drop w)
  else none

/-- Consume one expected separator code. -/
def readSep (c : Nat) : List Nat → Option (List Nat)
  | x :: xs => if x = c then some xs else none
  | [] => none

/-- Model of Python `datetime.isoformat()` as a character-code list. -/
def isoformat (t : DateTime) : List Nat :=
  fieldCodes 4 t.year ++ (45 :: (fieldCodes 2 t.month ++ (45 :: (fieldCodes 2 t.day ++
    (84 :: (fieldCodes 2 t.hour ++ (58 :: (fieldCodes 2 t.minute ++ (58 ::
    (fieldCodes 2 t.second ++
      (if t.microsecond = 0 then [] else 46 :: fieldCodes 6 t.microsecond)))))))))))

/-- Model of Python `datetime.fromisoformat` on the strings `isoformat`
emits; any other shape is a parse error (`none`). -/
def fromisoformat (cs : List Nat) : Option DateTime :=
  (readField 4 cs).bind fun py =>
  (readSep 45 py.2).bind fun r1 =>
  (readField 2 r1).bind fun pmo =>
  (readSep 45 pmo.2).bind fun r2 =>
  (readField 2 r2).bind fun pd =>
  (readSep 84 pd.2).bind fun r3 =>
  (readField 2 r3).bind fun ph =>
  (readSep 58 ph.2).bind fun r4 =>
  (readField 2 r4).bind fun pmi =>
  (readSep 58 pmi.2).bind fun r5 =>
  (readField 2 r5).bind fun ps =>
  if ps.2 = [] then some ⟨py.1, pmo.1, pd.1, ph.1, pmi.1, ps.1, 0⟩
  else
    (readSep 46 ps.2).bind fun r6 =>
    (readField 6 r6).bind fun pus =>
    if pus.2 = [] then some ⟨py.1, pmo.1, pd.1, ph.1, pmi.1, ps.1, pus.1⟩ else none

/-- Python `datetime` comparison (lexicographic on the field tuple), used by
`OptimizationHistory.get_results`' `sorted(..., key=lambda x: x.timestamp)`. -/
def dtLeB (a b : DateTime) : Bool :=
  if a.year ≠ b.year then a.year < b.year
  else if a.month ≠ b.month then a.month < b.month
  else if a.day ≠ b.day then a.day < b.day
  else if a.hour ≠ b.hour then a.hour < b.hour
  else if a.minute ≠ b.minute then a.minute < b.minute
  else if a.second ≠ b.second then a.second < b.second
  else a.microsecond ≤ b.microsecond

/-! ## Result ledger (`models.py`)

`OptimizationResult` is the pydantic model; Python `Dict[str, str]` fields
become association lists (key order preserved), `Optional[...]` becomes
`Option`.  `OptimizationHistory` keeps `results : List OptimizationResult`;
`save_history` serializes every result (timestamp via `isoformat`) and
`load_history` reads them all back (any failure yields the empty list). -/

/-- Image descriptor as used by the worker: `id`, `alt`, `title`, and the
`name` field the updater writes. -/
structure Image where
  id : Nat
  alt : String
  title : String
  name : String
deriving DecidableEq, Repr

/-- Fields of `OptimizationResult` other than the timestamp. -/
structure ResultData where
  product_id : Nat
  product_name : String
  new_product_name : Option String
  old_slug : Option String
  new_slug : Option String
  title_change_reason : Option String
  product_link : String
  old_description : String
  new_description : String
  old_meta_description : Option String
  meta_description : String
  old_keywords : Option String
  keywords : String
  old_image_alts : Option (List (String × String))
  new_image_alts : Option (List (String × String))
  old_image_titles : Option (List (String × String))
  new_image_titles : Option (List (String × String))
  images : Option (List Image)
  status : String
deriving DecidableEq, Repr

/-- The ledger entity (`models.OptimizationResult`). -/
structure OptimizationResult extends ResultData where
  timestamp : DateTime
deriving DecidableEq, Repr

/-- One record of the persisted history file: identical fields, with the
timestamp serialized to its ISO character codes (`result.timestamp.isoformat()`). -/
structure PersistedRecord extends ResultData where
  timestamp : List Nat
deriving DecidableEq, Repr

/-- Model of `OptimizationHistory.save_history`: serialize every result in
list order (the file holds the whole list; the `timestamp` field is replaced
by its `isoformat()` string). -/
def save_history (results : List OptimizationResult) : List PersistedRecord :=
  results.map fun r => ⟨r.toResultData, isoformat r.timestamp⟩

/-- Deserialize one record (`OptimizationResult(**{**item, 'timestamp':
datetime.fromisoformat(item['timestamp'])})`). -/
def decodeRecord (p : PersistedRecord) : Option OptimizationResult :=
  (fromisoformat p.timestamp).map fun ts => ⟨p.toResultData, ts⟩

/-- Decode every record; a single failure fails the whole load, mirroring
the exception raised inside the list comprehension of `load_history`. -/
def decodeAll : List PersistedRecord → Option (List OptimizationResult)
  | [] => some []
  | p :: ps =>
    match decodeRecord p, decodeAll ps with
    | some r, some rs => some (r :: rs)
    | _, _ => none

/-- Model of `OptimizationHistory.load_history`: read the whole file; on any
parse error fall back to the empty history (`except ...: self.results = []`). -/
def load_history (file : List PersistedRecord) : List OptimizationResult :=
  (decodeAll file).getD []

/-- Model of `models.OptimizationHistory.get_results`: all results sorted by
timestamp ascending (`sorted(self.results, key=lambda x: x.timestamp)`). -/
def get_results (results : List OptimizationResult) : List OptimizationResult :=
  results.insertionSort fun a b => dtLeB a.timestamp b.timestamp = true

/-- Model of `OptimizationHistory.get_processed_ids`: the set
`{r.product_id for r in self.results}`, represented by the list of ids
(membership is the only operation the worker performs on it). -/
def get_processed_ids (results : List OptimizationResult) : List Nat :=
  results.map fun r => r.product_id

/-! ## Keyword research (`keyword_research.py`)

The trend service (`pytrends`) is abstracted as an `Except`-valued
environment function; the on-disk JSON cache becomes an association list
from cache key to entry.  Timestamps here are epoch seconds (`datetime.now()`
/ `datetime.fromisoformat` arithmetic compares against `timedelta(days=7)`). -/

/-- One trending-keyword candidate (`{'keyword': .., 'score': .., 'type': ..}`). -/
structure TrendKeyword where
  keyword : String
  score : Int
  type : String
deriving DecidableEq, Repr

/-- A cache entry: `{'keywords': [...], 'timestamp': iso}`; the timestamp is
modelled in epoch seconds. -/
structure TrendCacheEntry where
  keywords : List TrendKeyword
  timestamp : Nat
deriving DecidableEq, Repr

/-- Related-query rows for one search term: the `rising` and `top` frames,
each possibly `None`. -/
structure TrendRows where
  rising : Option (List (String × Int))
  top : Option (List (String × Int))
deriving DecidableEq, Repr

/-- The external pytrends collaborator: `build_payload` + `related_queries`
as a single fallible call. -/
structure TrendEnv where
  relatedQueries : List String → Except String (List (String × TrendRows))

/-- Result of one `get_trending_keywords` invocation; `queried` instruments
whether the external trend service was invoked at all. -/
structure TrendResult where
  keywords : List TrendKeyword
  queried : Bool
  cache : List (String × TrendCacheEntry)
deriving Repr

/-- Python truthiness of the optional category string. -/
def catTruthy : Option String → Bool
  | none => false
  | some s => s ≠ ""

/-- Python f-string rendering of the optional category (`None` prints as
`"None"`). -/
def catStr : Option String → String
  | none => "None"
  | some s => s

/-- Cache key `f"{product_name}_{category}_{self.country}"`. -/
def trendCacheKey (product_name : String) (category : Option String) (country : String) : String :=
  product_name ++ "_" ++ catStr category ++ "_" ++ country

/-- Python dict assignment `self.cache[key] = value`: replace in place if the
key exists, else append. -/
def dictSet {β : Type} (m : List (String × β)) (k : String) (v : β) : List (String × β) :=
  match m with
  | [] => [(k, v)]
  | (k0, v0) :: rest => if k0 = k then (k, v) :: rest else (k0, v0) :: dictSet rest k v

/-- Seven days, in epoch seconds (`timedelta(days=7)`). -/
def sevenDays : Nat := 7 * 86400

/-- Model of `KeywordResearch.get_trending_keywords`: serve a fresh cache
entry directly; otherwise query the trend service, deduplicate by phrase
(first occurrence wins), sort by descending score, store in the cache; on
any exception return the empty list. -/
def get_trending_keywords (env : TrendEnv) (cache : List (String × TrendCacheEntry))
    (country : String) (product_name : String) (category : Option String) (now : Nat) :
    TrendResult :=
  let cache_key := trendCacheKey product_name category country
  match List.lookup cache_key cache with
  | some cached_data =>
    if now - cached_data.timestamp < sevenDays then ⟨cached_data.keywords, false, cache⟩
    else trendQuery env cache cache_key product_name category now
  | none => trendQuery env cache cache_key product_name category now
where
  /-- The body of the `try:` block (pytrends query, dedup, sort, cache write). -/
  trendQuery (env : TrendEnv) (cache : List (String × TrendCacheEntry)) (cache_key : String)
      (product_name : String) (category : Option String) (now : Nat) : TrendResult :=
    let base_keywords := pySplit (pyLower product_name) ++
      (if catTruthy category then pySplit (pyLower (catStr category)) else [])
    match env.relatedQueries base_keywords with
    | .error _ => ⟨[], true, cache⟩
    | .ok related_queries =>
      let trending_keywords := base_keywords.foldl (fun acc kw =>
        match List.lookup kw related_queries with
        | none => acc
        | some rows =>
          let accR := acc ++ ((rows.rising.getD []).map fun q =>
            (⟨q.1, q.2, "rising"⟩ : TrendKeyword))
          accR ++ ((rows.top.getD []).map fun q => (⟨q.1, q.2, "top"⟩ : TrendKeyword))) []
      let unique_keywords := dedupFirstBy (fun k => k.keyword) trending_keywords []
      let result := unique_keywords.insertionSort fun a b => b.score ≤ a.score
      let cache1 := dictSet cache cache_key ⟨result, now⟩
      ⟨result, true, cache1⟩

/-- Model of `KeywordResearch._extract_basic_keywords`: single words with
stop words removed, adjacent bigrams, category and category+last-word, then
dedup and the first 10.  Python's `list(set(..))` order is fixed as first
occurrence. -/
def extract_basic_keywords (title : String) (category : Option String) : List String :=
  let title_words := pySplit (pyReplaceChar "-" " " (pyLower title))
  let stop_words := ["and", "or", "the", "a", "an", "in", "on", "at", "for", "to", "of", "with"]
  let title_words := title_words.filter fun w => w ∉ stop_words
  let keywords := title_words
  let keywords := keywords ++ ((title_words.zip title_words.tail).map fun p => p.1 ++ " " ++ p.2)
  let keywords := keywords ++
    (if catTruthy category then
      [pyLower (catStr category)] ++
        (match title_words.getLast? with
         | some w => [pyLower (catStr category) ++ " " ++ w]
         | none => [])
     else [])
  (dedupFirstBy id keywords []).take 10

/-- Model of `KeywordResearch.get_keyword_suggestions`.  The behavior of
`self._get_trending_keywords(title)` — including a raised exception — is the
`trendOutcome` argument: the `try`/`except` around it returns the heuristic
keywords on error, and a falsy (empty) trend list also falls through to the
heuristic extraction. -/
def get_keyword_suggestions (trendOutcome : Except String (List String))
    (title : String) (category : Option String) : List String :=
  match trendOutcome with
  | .ok trending_keywords =>
    if trending_keywords.isEmpty then extract_basic_keywords title category
    else trending_keywords
  | .error _ => extract_basic_keywords title category

/-! ## Catalog items and content helpers (`worker.py`)

`Product` embeds the WooCommerce item dict with the fields the worker reads
(`product.get(key, default)` of an absent key is the default value, so
optional dict keys become plain fields holding that default). -/

/-- One variation attribute (`{'name': .., 'option': ..}`). -/
structure Attr where
  name : String
  option : String
deriving DecidableEq, Repr

/-- One product variation: its attribute list. -/
structure Variation where
  attributes : List Attr
deriving DecidableEq, Repr

/-- Color/size descriptor extracted from a variation. -/
structure VariantInfo where
  color : String
  size : String
deriving DecidableEq, Repr

/-- Catalog item as consumed by `process_optimization`. -/
structure Product where
  id : Nat
  name : String
  slug : String
  permalink : String
  description : String
  category : String
  meta_data : List (String × String)
  images : List Image
  gallery_images : List Image
  variations : List Variation
deriving DecidableEq, Repr

/-- Attribute scan of one variation: the last attribute whose lowercased
name contains `'color'` (resp. `'size'`) wins, as in the source's loop. -/
def variantOfAttrs (attrs : List Attr) : VariantInfo :=
  attrs.foldl (fun vi a =>
    let attr_name := pyLower a.name
    if strContainsSub attr_name "color" then { vi with color := a.option }
    else if strContainsSub attr_name "size" then { vi with size := a.option }
    else vi) ⟨"", ""⟩

/-- Model of `get_variant_info`: variations enumerated from 1, keyed by the
decimal string of their ordinal. -/
def get_variant_info (product : Product) : List (String × VariantInfo) :=
  (List.enumFrom 1 product.variations).map fun p => (toString p.1, variantOfAttrs p.2.attributes)

/-- Alt text and image title for one image position. -/
structure ImageText where
  alt : String
  title : String
deriving DecidableEq, Repr

/-- Text for image ordinal `idx` (1-based): main image, variant-composed
gallery text, or the gallery fallback — the per-ordinal body of
`generate_gallery_alt_tags`. -/
def galleryText (title : String) (variants : List (String × VariantInfo)) (idx : Nat) :
    ImageText :=
  if idx = 1 then ⟨title, title ++ " - Main Product Image"⟩
  else
    let variant_info := (List.lookup (toString (idx - 1)) variants).getD ⟨"", ""⟩
    let variant_text := (if variant_info.color ≠ "" then [variant_info.color] else []) ++
      (if variant_info.size ≠ "" then [variant_info.size] else [])
    if variant_text ≠ [] then
      let variant_str := joinSpace variant_text
      ⟨title ++ " " ++ variant_str, title ++ " - " ++ variant_str⟩
    else ⟨title, title ++ " - Gallery Image " ++ toString idx⟩

/-- Model of `generate_gallery_alt_tags`: a dict from the 1-based image
ordinal (as a decimal string) to its alt/title text, in enumeration order. -/
def generate_gallery_alt_tags (title : String) (images : List Image)
    (variants : List (String × VariantInfo)) : List (String × ImageText) :=
  (List.range images.length).map fun i => (toString (i + 1), galleryText title variants (i + 1))

/-! ## Pipeline orchestrator (`worker.process_optimization`)

External collaborators (WordPress catalog API and the OpenAI-backed
generators) are an environment of `Except`-valued functions: an `.error`
models a raised exception at that call.  Every external invocation is also
logged as an `ExtCall`, so that frame properties ("the update endpoint is
never invoked") are statable.  The mutable module state is
`optimization_history.results` (the ledger) plus a tick counter feeding
`datetime.now()`. -/

/-- Output of `generate_seo_title_and_slug` (parsed from the completion). -/
structure TitleSlugData where
  title : String
  slug : String
  reason : String
deriving DecidableEq, Repr

/-- Output of `generate_meta_from_title`. -/
structure MetaData where
  meta_description : String
  keywords : String
deriving DecidableEq, Repr

/-- Output of `generate_seo_content` (the `image_alt_tags` entry is produced
but never read by `process_optimization`). -/
structure SeoContent where
  keywords : String
  meta_description : String
  description : String
  image_alt_tags : List (String × String)
deriving DecidableEq, Repr

/-- The full-field update payload assembled for `wp_api.update_product`;
`images`/`gallery_images` are `none` when the keys are left absent
(dry-run path). -/
structure UpdateData where
  name : String
  slug : String
  description : String
  meta_data : List (String × String)
  images : Option (List Image)
  gallery_images : Option (List Image)
deriving DecidableEq, Repr

/-- Payload of one `update_product` call: the immediate title/slug write or
the full update. -/
inductive UpdatePayload where
  | initialNameSlug (name slug : String)
  | full (data : UpdateData)
deriving DecidableEq, Repr

/-- Log entry for one external invocation. -/
inductive ExtCall where
  | titleSlug (title category : String)
  | metaFromTitle (title : String)
  | seoContent (title description category : String) (images : List Image)
  | update (product_id : Nat) (payload : UpdatePayload)
deriving DecidableEq, Repr

/-- Is this call an invocation of the catalog update endpoint? -/
def ExtCall.isUpdate : ExtCall → Bool
  | .update _ _ => true
  | _ => false

/-- The collaborator environment of one run. -/
structure Env where
  fetchPage : Nat → Except String (List Product)
  titleSlug : String → String → Except String TitleSlugData
  metaFromTitle : String → Except String MetaData
  seoContent : String → String → String → List Image → Except String SeoContent
  updateProduct : Nat → UpdatePayload → Except String Unit
  now : Nat → DateTime
  baseUrl : String

/-- Mutable state threaded through a run: the ledger list and the clock
tick used for `datetime.now()`. -/
structure RunState where
  ledger : List OptimizationResult
  tick : Nat
deriving Repr

/-- The dicts of current image alt texts and titles: product images
enumerated from 1, gallery images continuing from
`len(product_images) + 1`. -/
def indexedTexts (product_images gallery_images : List Image) :
    List (String × String) × List (String × String) :=
  let both := List.enumFrom 1 product_images ++
    List.enumFrom (product_images.length + 1) gallery_images
  (both.map fun p => (toString p.1, p.2.alt), both.map fun p => (toString p.1, p.2.title))

/-- Copy images, overwriting `alt`/`title`/`name` from the generated texts
when the dict holds the image's ordinal (enumeration starting at `start`). -/
def applyTexts (start : Nat) (imgs : List Image) (texts : List (String × ImageText)) :
    List Image :=
  (List.enumFrom start imgs).map fun p =>
    match List.lookup (toString p.1) texts with
    | some t => { p.2 with alt := t.alt, title := t.title, name := t.title }
    | none => p.2

/-- Python dict built from the `meta_data` pair list (`{item['key']:
item['value']}`, later pairs win) read back with `.get(key, '')`. -/
def metaGet (meta : List (String × String)) (key : String) : String :=
  (List.lookup key meta.reverse).getD ""

/-- Assemble the recorded `OptimizationResult` for one processed item. -/
def mkResult (baseUrl : String) (product : Product) (td : TitleSlugData)
    (old_meta_description old_keywords : String) (sc : SeoContent)
    (oldAlts oldTitles newAlts newTitles : List (String × String))
    (product_images : List Image) (status : String) (ts : DateTime) : OptimizationResult :=
  { product_id := product.id
    product_name := product.name
    new_product_name := some td.title
    old_slug := some product.slug
    new_slug := some td.slug
    title_change_reason := some td.reason
    product_link := if product.permalink ≠ "" then product.permalink
      else baseUrl ++ "/product/" ++ product.slug
    old_description := product.description
    new_description := sc.description
    old_meta_description := some old_meta_description
    meta_description := sc.meta_description
    old_keywords := some old_keywords
    keywords := ((pySplitOn ',' sc.keywords).headD "")
    old_image_alts := some oldAlts
    new_image_alts := some newAlts
    old_image_titles := some oldTitles
    new_image_titles := some newTitles
    images := some product_images
    status := status
    timestamp := ts }

/-- The `update_data` dict as first assembled (worker.py:449-463): title,
slug, description and the two Yoast meta entries; the image keys are still
absent. -/
def baseUpdateData (td : TitleSlugData) (sc : SeoContent) : UpdateData :=
  { name := td.title
    slug := td.slug
    description := sc.description
    meta_data := [("_yoast_wpseo_metadesc", sc.meta_description),
      ("_yoast_wpseo_focuskw", (pySplitOn ',' sc.keywords).headD "")]
    images := none
    gallery_images := none }

/-- The `update_data` dict as sent by the non-dry-run full update
(worker.py:465-504): the base payload with product and gallery images
rewritten with the freshly generated alt/title texts. -/
def fullUpdateData (product : Product) (td : TitleSlugData) (sc : SeoContent) : UpdateData :=
  { baseUpdateData td sc with
    images := some (applyTexts 1 product.images
      (generate_gallery_alt_tags td.title product.images (get_variant_info product)))
    gallery_images := some (applyTexts (product.images.length + 1) product.gallery_images
      (generate_gallery_alt_tags td.title product.images (get_variant_info product))) }

/-- GENERATING tail of one item (variant info, image texts, SEO content)
followed by WRITING and the construction of the record; returns the
external calls made and the recorded result, or `none` when an exception
aborted the item. -/
def itemSeoPhase (env : Env) (dry_run : Bool) (tick : Nat) (product : Product)
    (td : TitleSlugData) (old_meta_description old_keywords : String) :
    List ExtCall × Option OptimizationResult :=
  let variants := get_variant_info product
  let product_images := product.images
  let texts := indexedTexts product_images product.gallery_images
  let seoCall := ExtCall.seoContent td.title product.description product.category product_images
  match env.seoContent td.title product.description product.category product_images with
  | .error _ => ([seoCall], none)
  | .ok sc =>
    let new_image_texts := generate_gallery_alt_tags td.title product_images variants
    let new_image_alts := new_image_texts.map fun p => (p.1, p.2.alt)
    let new_image_titles := new_image_texts.map fun p => (p.1, p.2.title)
    if dry_run then
      ([seoCall], some (mkResult env.baseUrl product td old_meta_description old_keywords sc
        texts.1 texts.2 new_image_alts new_image_titles product_images "preview" (env.now tick)))
    else
      let update_data := fullUpdateData product td sc
      match env.updateProduct product.id (.full update_data) with
      | .error _ => ([seoCall, .update product.id (.full update_data)], none)
      | .ok _ =>
        ([seoCall, .update product.id (.full update_data)],
          some (mkResult env.baseUrl product td old_meta_description old_keywords sc
            texts.1 texts.2 new_image_alts new_image_titles product_images "success"
            (env.now tick)))

/-- Meta-data resolution step: read the Yoast fields from the item's
metadata and generate the missing ones from the title. -/
def itemMetaPhase (env : Env) (dry_run : Bool) (tick : Nat) (product : Product)
    (td : TitleSlugData) : List ExtCall × Option OptimizationResult :=
  let old_meta_description := metaGet product.meta_data "_yoast_wpseo_metadesc"
  let old_keywords := metaGet product.meta_data "_yoast_wpseo_focuskw"
  if old_meta_description = "" || old_keywords = "" then
    match env.metaFromTitle td.title with
    | .error _ => ([.metaFromTitle td.title], none)
    | .ok md =>
      let old_meta_description :=
        if old_meta_description = "" then md.meta_description else old_meta_description
      let old_keywords := if old_keywords = "" then md.keywords else old_keywords
      let s := itemSeoPhase env dry_run tick product td old_meta_description old_keywords
      (.metaFromTitle td.title :: s.1, s.2)
  else itemSeoPhase env dry_run tick product td old_meta_description old_keywords

/-- One iteration of the inner `for product in products` body: the skip
check, then the guarded item pipeline whose `try` boundary turns any raised
exception into "no result, continue".  Returns the calls made and the
appended result, if any. -/
def processItemCore (env : Env) (processed_ids : List Nat) (force_update dry_run : Bool)
    (tick : Nat) (product : Product) : List ExtCall × Option OptimizationResult :=
  if processed_ids.contains product.id && !force_update then ([], none)
  else
    match env.titleSlug product.name product.category with
    | .error _ => ([.titleSlug product.name product.category], none)
    | .ok td =>
      if dry_run then
        let s := itemMetaPhase env dry_run tick product td
        (.titleSlug product.name product.category :: s.1, s.2)
      else
        match env.updateProduct product.id (.initialNameSlug td.title td.slug) with
        | .error _ =>
          ([.titleSlug product.name product.category,
            .update product.id (.initialNameSlug td.title td.slug)], none)
        | .ok _ =>
          let s := itemMetaPhase env dry_run tick product td
          (.titleSlug product.name product.category ::
            .update product.id (.initialNameSlug td.title td.slug) :: s.1, s.2)

/-- The inner `for` loop over one fetched page: the cap check precedes each
item; a produced result is appended to the ledger (with its synchronous
save) and counted. -/
def processList (env : Env) (processed_ids : List Nat) (force_update dry_run : Bool)
    (limit : Nat) : List Product → Nat → RunState → RunState × List ExtCall × Nat
  | [], n, st => (st, [], n)
  | p :: ps, n, st =>
    if limit ≤ n then (st, [], n)
    else
      let pr := processItemCore env processed_ids force_update dry_run st.tick p
      match pr.2 with
      | none =>
        let r := processList env processed_ids force_update dry_run limit ps n st
        (r.1, pr.1 ++ r.2.1, r.2.2)
      | some result =>
        let st1 : RunState := ⟨st.ledger ++ [result], st.tick + 1⟩
        let r := processList env processed_ids force_update dry_run limit ps (n + 1) st1
        (r.1, pr.1 ++ r.2.1, r.2.2)

/-- The outer `while products_processed < PRODUCT_LIMIT` pagination loop;
`fuel` bounds the number of iterations (the source loop only terminates
through its internal `break`s).  A page-fetch exception or an empty page
ends the run. -/
def runLoop (env : Env) (processed_ids : List Nat) (force_update dry_run : Bool)
    (limit : Nat) : Nat → Nat → Nat → RunState → RunState × List ExtCall × Nat
  | 0, _, n, st => (st, [], n)
  | fuel + 1, page, n, st =>
    if limit ≤ n then (st, [], n)
    else
      match env.fetchPage page with
      | .error _ => (st, [], n)
      | .ok products =>
        if products.isEmpty then (st, [], n)
        else
          let r1 := processList env processed_ids force_update dry_run limit products n st
          if limit ≤ r1.2.2 then r1
          else
            let r2 := runLoop env processed_ids force_update dry_run limit fuel (page + 1)
              r1.2.2 r1.1
            (r2.1, r1.2.1 ++ r2.2.1, r2.2.2)

/-- Everything a run produces: final state, logged external calls, the
`products_processed` counter, and the value returned to the caller
(`optimization_history.get_results()`). -/
structure RunOutput where
  state : RunState
  calls : List ExtCall
  processed : Nat
  returned : List OptimizationResult

/-- Evaluation of `PRODUCT_LIMIT = max_products or 10`: Python `or` replaces
both `None` and the falsy `0` by the default 10. -/
def productLimit : Option Nat → Nat
  | none => 10
  | some n => if n = 0 then 10 else n

/-- Model of `process_optimization`: `PRODUCT_LIMIT = max_products or 10`
(so `none` — and `0` — fall back to 10), the prior-processed set is empty
under force-update, and the run always returns the ledger via
`get_results`. -/
def process_optimization (env : Env) (fuel : Nat) (history : List OptimizationResult)
    (max_products : Option Nat) (start_page : Nat) (force_update dry_run : Bool) : RunOutput :=
  let limit := productLimit max_products
  let processed_ids := if force_update then [] else get_processed_ids history
  let r := runLoop env processed_ids force_update dry_run limit fuel start_page 0 ⟨history, 0⟩
  ⟨r.1, r.2.1, r.2.2, get_results r.1.ledger⟩

/-! ## Concrete fixtures for witnesses and counterexamples -/

/-- A collaborator environment whose generators are unreachable and whose
catalog is empty; used to instantiate universally quantified claims. -/
def stubEnv : Env :=
  { fetchPage := fun _ => .ok []
    titleSlug := fun _ _ => .error "offline"
    metaFromTitle := fun _ => .error "offline"
    seoContent := fun _ _ _ _ => .error "offline"
    updateProduct := fun _ _ => .ok ()
    now := fun t => ⟨2025, 1, 1, 0, 0, t, 0⟩
    baseUrl := "https://shop.example" }

/-- A minimal catalog item with the given id and name. -/
def plainProduct (i : Nat) (nm : String) : Product :=
  { id := i
    name := nm
    slug := "slug"
    permalink := ""
    description := "desc"
    category := ""
    meta_data := []
    images := []
    gallery_images := []
    variations := [] }

/-- Environment of a 3-item page where only item 2's generation call
raises; every other collaborator call succeeds. -/
def c1Env : Env :=
  { fetchPage := fun page =>
      if page = 1 then .ok [plainProduct 1 "P1", plainProduct 2 "P2", plainProduct 3 "P3"]
      else .ok []
    titleSlug := fun nm _ =>
      if nm = "P2" then .error "boom" else .ok ⟨"T " ++ nm, "t-" ++ nm, "better"⟩
    metaFromTitle := fun _ => .ok ⟨"md", "kw1, kw2"⟩
    seoContent := fun _ _ _ _ => .ok ⟨"kw1, kw2", "meta", "desc", []⟩
    updateProduct := fun _ _ => .ok ()
    now := fun t => ⟨2025, 1, 1, 0, 0, t, 0⟩
    baseUrl := "https://shop.example" }

/-- Environment whose catalog is never exhausted: every page holds one
fresh item. -/
def c9Env : Env :=
  { fetchPage := fun page => .ok [plainProduct (100 + page) ("Q" ++ toString page)]
    titleSlug := fun _ _ => .ok ⟨"T", "t", "r"⟩
    metaFromTitle := fun _ => .ok ⟨"md", "kw"⟩
    seoContent := fun _ _ _ _ => .ok ⟨"kw1,kw2", "meta", "desc", []⟩
    updateProduct := fun _ _ => .ok ()
    now := fun t => ⟨2025, 1, 1, 0, 0, t, 0⟩
    baseUrl := "https://shop.example" }

/-- The three images of the Blue Hoodie example (one main image plus two
gallery positions). -/
def bhImages : List Image :=
  [⟨11, "", "", ""⟩, ⟨12, "", "", ""⟩, ⟨13, "", "", ""⟩]

/-- Variant mapping of the Blue Hoodie example: gallery position 1 carries
color Blue / size M, position 2 has no variant. -/
def bhVariants : List (String × VariantInfo) :=
  [("1", ⟨"Blue", "M"⟩)]

/-- A fully populated ledger entry with the given id, status and timestamp. -/
def sampleResult (i : Nat) (s : String) (ts : DateTime) : OptimizationResult :=
  { product_id := i
    product_name := "Widget"
    new_product_name := some "Premium Widget"
    old_slug := some "widget"
    new_slug := some "premium-widget"
    title_change_reason := some "clarity"
    product_link := "https://shop.example/product/widget"
    old_description := "old"
    new_description := "new"
    old_meta_description := some "old meta"
    meta_description := "new meta"
    old_keywords := some "widget"
    keywords := "premium widget"
    old_image_alts := some [("1", "a")]
    new_image_alts := some [("1", "Widget")]
    old_image_titles := some [("1", "t")]
    new_image_titles := some [("1", "Widget - Main Product Image")]
    images := some []
    status := s
    timestamp := ts }

/-- History holding only a dry-run ("preview") entry and an "error" entry. -/
def previewErrorHistory : List OptimizationResult :=
  [sampleResult 3 "preview" ⟨2025, 1, 1, 0, 0, 0, 0⟩,
   sampleResult 4 "error: boom" ⟨2025, 1, 1, 0, 0, 1, 0⟩]

/-- Environment where only the meta-from-title generation call raises. -/
def metaDownEnv : Env :=
  { fetchPage := fun _ => .ok []
    titleSlug := fun _ _ => .ok ⟨"T", "t", "r"⟩
    metaFromTitle := fun _ => .error "rate limited"
    seoContent := fun _ _ _ _ => .ok ⟨"kw1,kw2", "meta", "desc", []⟩
    updateProduct := fun _ _ => .ok ()
    now := fun t => ⟨2025, 1, 1, 0, 0, t, 0⟩
    baseUrl := "https://shop.example" }

/-- Environment where only the SEO-content generation call raises. -/
def seoDownEnv : Env :=
  { metaDownEnv with
    metaFromTitle := fun _ => .ok ⟨"md", "kw"⟩
    seoContent := fun _ _ _ _ => .error "rate limited" }

/-- Environment where every catalog write raises (the immediate title/slug
write is the first to fail). -/
def initWriteDownEnv : Env :=
  { metaDownEnv with
    metaFromTitle := fun _ => .ok ⟨"md", "kw"⟩
    updateProduct := fun _ _ => .error "503" }

/-- Environment where the immediate title/slug write succeeds but the full
field update raises. -/
def fullWriteDownEnv : Env :=
  { initWriteDownEnv with
    updateProduct := fun _ payload =>
      match payload with
      | .initialNameSlug _ _ => .ok ()
      | .full _ => .error "503" }

/-- Trend environment whose external service is down. -/
def downTrendEnv : TrendEnv :=
  ⟨fun _ => .error "rate limited"⟩

/-- A cached candidate list for the key of product "shoes" (no category,
region ALL), created at epoch second 0. -/
def shoesCache : List (String × TrendCacheEntry) :=
  [("shoes_None_ALL", ⟨[⟨"running shoes", 80, "top"⟩], 0⟩)]

/-! ## Helper lemmas -/

/-! ### Round-trip lemmas for the ISO encoding -/

theorem ofDigits_replicate_zero (k : Nat) : Nat.ofDigits 10 (List.replicate k 0) = 0 := by
  induction k with
  | zero => simp [Nat.ofDigits]
  | succ n ih => simp [List.replicate_succ, Nat.ofDigits, ih]

theorem digits_length_le (w n : Nat) (h : n < 10 ^ w) : (Nat.digits 10 n).length ≤ w := by
  rcases Nat.eq_zero_or_pos n with rfl | hn
  · simp
  · rw [Nat.digits_len 10 n (by norm_num) hn.ne']
    have hlog := (Nat.lt_pow_iff_log_lt (by norm_num) hn.ne').1 h
    omega

theorem fieldCodes_length (w n : Nat) (h : n < 10 ^ w) : (fieldCodes w n).length = w := by
  have hle : (Nat.digits 10 n).length ≤ w := digits_length_le w n h
  simp [fieldCodes]
  omega

theorem fieldCodes_all_digits (w n : Nat) : (fieldCodes w n).all isDigitCode = true := by
  simp only [fieldCodes, List.all_map, List.all_eq_true]
  intro d hd
  rcases List.mem_append.1 hd with hrep | hds
  · have : d = 0 := (List.eq_of_mem_replicate hrep)
    simp [this, isDigitCode, Function.comp]
  · have : d ∈ Nat.digits 10 n := List.mem_reverse.1 hds
    have hlt : d < 10 := Nat.digits_lt_base (by norm_num) this
    simp [isDigitCode, Function.comp]
    omega

theorem codesVal_fieldCodes (w n : Nat) : codesVal (fieldCodes w n) = n := by
  unfold codesVal fieldCodes
  simp only [List.map_map]
  have hmap :
      (List.map ((fun c => c - 48) ∘ fun d => 48 + d)
        (List.replicate (w - (Nat.digits 10 n).reverse.length) 0 ++ (Nat.digits 10 n).reverse)) =
      List.replicate (w - (Nat.digits 10 n).reverse.length) 0 ++ (Nat.digits 10 n).reverse := by
    have : ((fun c => c - 48) ∘ fun d => 48 + d) = id := by
      funext d
      simp
    rw [this, List.map_id]
  rw [hmap, List.reverse_append, List.reverse_reverse, List.reverse_replicate,
    Nat.ofDigits_append, Nat.ofDigits_digits, ofDigits_replicate_zero]
  ring

theorem readField_spec (w n : Nat) (rest : List Nat) (h : n < 10 ^ w) :
    readField w (fieldCodes w n ++ rest) = some (n, rest) := by
  have hlen : (fieldCodes w n).length = w := fieldCodes_length w n h
  unfold readField
  rw [List.take_left' hlen, List.drop_left' hlen]
  simp [hlen, fieldCodes_all_digits, codesVal_fieldCodes]

theorem readSep_spec (c : Nat) (rest : List Nat) : readSep c (c :: rest) = some rest := by
  simp [readSep]

theorem readField_spec_nil (w n : Nat) (h : n < 10 ^ w) :
    readField w (fieldCodes w n) = some (n, []) := by
  have hx := readField_spec w n [] h
  simpa using hx

theorem fieldCodes_ne_nil (w n : Nat) (hw : 0 < w) (h : n < 10 ^ w) :
    fieldCodes w n ≠ [] := by
  intro hc
  have := fieldCodes_length w n h
  rw [hc] at this
  simp at this
  omega

theorem fromisoformat_isoformat (t : DateTime) (h : validDT t) :
    fromisoformat (isoformat t) = some t := by
  obtain ⟨y, mo, d, hh, mi, s, us⟩ := t
  obtain ⟨h1, h2, h3, h4, h5, h6, h7⟩ := h
  simp only at h1 h2 h3 h4 h5 h6 h7
  unfold isoformat fromisoformat
  dsimp only
  by_cases hus : us = 0
  · subst hus
    rw [if_pos rfl]
    rw [readField_spec 4 y _ h1]
    dsimp only [Option.bind]
    rw [readSep_spec]
    dsimp only [Option.bind]
    rw [readField_spec 2 mo _ h2]
    dsimp only [Option.bind]
    rw [readSep_spec]
    dsimp only [Option.bind]
    rw [readField_spec 2 d _ h3]
    dsimp only [Option.bind]
    rw [readSep_spec]
    dsimp only [Option.bind]
    rw [readField_spec 2 hh _ h4]
    dsimp only [Option.bind]
    rw [readSep_spec]
    dsimp only [Option.bind]
    rw [readField_spec 2 mi _ h5]
    dsimp only [Option.bind]
    rw [readSep_spec]
    dsimp only [Option.bind]
    rw [readField_spec 2 s [] h6]
    dsimp only [Option.bind]
    simp
  · rw [if_neg hus]
    rw [readField_spec 4 y _ h1]
    dsimp only [Option.bind]
    rw [readSep_spec]
    dsimp only [Option.bind]
    rw [readField_spec 2 mo _ h2]
    dsimp only [Option.bind]
    rw [readSep_spec]
    dsimp only [Option.bind]
    rw [readField_spec 2 d _ h3]
    dsimp only [Option.bind]
    rw [readSep_spec]
    dsimp only [Option.bind]
    rw [readField_spec 2 hh _ h4]
    dsimp only [Option.bind]
    rw [readSep_spec]
    dsimp only [Option.bind]
    rw [readField_spec 2 mi _ h5]
    dsimp only [Option.bind]
    rw [readSep_spec]
    dsimp only [Option.bind]
    rw [readField_spec 2 s (46 :: fieldCodes 6 us) h6]
    dsimp only [Option.bind]
    rw [if_neg (by simp)]
    rw [readSep_spec]
    dsimp only [Option.bind]
    rw [readField_spec_nil 6 us h7]
    dsimp only [Option.bind]
    simp

theorem decodeRecord_save (r : OptimizationResult) (h : validDT r.timestamp) :
    decodeRecord ⟨r.toResultData, isoformat r.timestamp⟩ = some r := by
  simp [decodeRecord, fromisoformat_isoformat r.timestamp h]

theorem decodeAll_save (l : List OptimizationResult) (h : ∀ r ∈ l, validDT r.timestamp) :
    decodeAll (save_history l) = some l := by
  induction l with
  | nil => simp [save_history, decodeAll]
  | cons r rs ih =>
    have hr := h r (by simp)
    have hrs := ih fun x hx => h x (by simp [hx])
    simp only [save_history, List.map_cons, decodeAll, decodeRecord_save r hr]
    rw [show List.map (fun r : OptimizationResult =>
      (⟨r.toResultData, isoformat r.timestamp⟩ : PersistedRecord)) rs = save_history rs from rfl]
    rw [hrs]

theorem itemSeoPhase_some (env : Env) (dry : Bool) (tick : Nat) (p : Product)
    (td : TitleSlugData) (omd okw : String) (r : OptimizationResult)
    (h : (itemSeoPhase env dry tick p td omd okw).2 = some r) :
    r.product_id = p.id ∧ r.status = (if dry then "preview" else "success") ∧
      r.timestamp = env.now tick := by
  unfold itemSeoPhase at h
  dsimp only at h
  cases hseo : env.seoContent td.title p.description p.category p.images with
  | error e =>
    rw [hseo] at h
    simp at h
  | ok sc =>
    rw [hseo] at h
    cases dry with
    | true =>
      simp only [if_pos] at h
      simp at h
      rw [← h]
      simp [mkResult]
    | false =>
      simp only [Bool.false_eq_true, if_false] at h
      split at h
      · simp at h
      · simp at h
        rw [← h]
        simp [mkResult]

theorem itemMetaPhase_some (env : Env) (dry : Bool) (tick : Nat) (p : Product)
    (td : TitleSlugData) (r : OptimizationResult)
    (h : (itemMetaPhase env dry tick p td).2 = some r) :
    r.product_id = p.id ∧ r.status = (if dry then "preview" else "success") ∧
      r.timestamp = env.now tick := by
  unfold itemMetaPhase at h
  dsimp only at h
  split at h
  · split at h
    · simp at h
    · dsimp only at h
      exact itemSeoPhase_some env dry tick p td _ _ r h
  · exact itemSeoPhase_some env dry tick p td _ _ r h

theorem processItemCore_some (env : Env) (ids : List Nat) (force dry : Bool) (tick : Nat)
    (p : Product) (r : OptimizationResult)
    (h : (processItemCore env ids force dry tick p).2 = some r) :
    r.product_id = p.id ∧ r.status = (if dry then "preview" else "success") ∧
      r.timestamp = env.now tick ∧ (force = false → p.id ∉ ids) := by
  unfold processItemCore at h
  split at h
  · simp at h
  · rename_i hskip
    have hnotin : force = false → p.id ∉ ids := by
      intro hf hmem
      apply hskip
      subst hf
      simp [List.contains, List.elem_iff, hmem]
    split at h
    · simp at h
    · dsimp only at h
      split at h
      · have hm := itemMetaPhase_some env dry tick p _ r h
        exact ⟨hm.1, hm.2.1, hm.2.2, hnotin⟩
      · split at h
        · simp at h
        · have hm := itemMetaPhase_some env dry tick p _ r h
          exact ⟨hm.1, hm.2.1, hm.2.2, hnotin⟩

theorem processItemCore_skip (env : Env) (ids : List Nat) (dry : Bool) (tick : Nat)
    (p : Product) (h : p.id ∈ ids) :
    processItemCore env ids false dry tick p = ([], none) := by
  unfold processItemCore
  have hc : ids.contains p.id = true := by
    simp [List.contains, List.elem_iff, h]
  rw [if_pos (by simp [hc, h])]

theorem processItemCore_force_titleSlug (env : Env) (ids : List Nat) (dry : Bool) (tick : Nat)
    (p : Product) :
    ∃ rest, (processItemCore env ids true dry tick p).1 =
      ExtCall.titleSlug p.name p.category :: rest := by
  unfold processItemCore
  rw [if_neg (by simp)]
  cases hts : env.titleSlug p.name p.category with
  | error e => exact ⟨[], rfl⟩
  | ok td =>
    dsimp only
    cases dry with
    | true =>
      simp only [if_pos]
      exact ⟨_, rfl⟩
    | false =>
      simp only [Bool.false_eq_true, if_false]
      cases hup : env.updateProduct p.id (.initialNameSlug td.title td.slug) with
      | error e => exact ⟨_, rfl⟩
      | ok u => exact ⟨_, rfl⟩

theorem processItemCore_titleSlug_error (env : Env) (ids : List Nat) (force dry : Bool)
    (tick : Nat) (p : Product) (e : String)
    (h : env.titleSlug p.name p.category = .error e) :
    (processItemCore env ids force dry tick p).2 = none := by
  unfold processItemCore
  split
  · rfl
  · rw [h]

theorem processItemCore_initial_write_error (env : Env) (ids : List Nat) (force : Bool)
    (tick : Nat) (p : Product) (td : TitleSlugData) (e : String)
    (htd : env.titleSlug p.name p.category = .ok td)
    (h : env.updateProduct p.id (.initialNameSlug td.title td.slug) = .error e) :
    (processItemCore env ids force false tick p).2 = none := by
  unfold processItemCore
  split
  · rfl
  · rw [htd]
    dsimp only
    simp only [Bool.false_eq_true, if_false]
    rw [h]

theorem itemMetaPhase_meta_error (env : Env) (dry : Bool) (tick : Nat) (p : Product)
    (td : TitleSlugData) (e : String)
    (hmiss : metaGet p.meta_data "_yoast_wpseo_metadesc" = "" ∨
      metaGet p.meta_data "_yoast_wpseo_focuskw" = "")
    (h : env.metaFromTitle td.title = .error e) :
    (itemMetaPhase env dry tick p td).2 = none := by
  unfold itemMetaPhase
  dsimp only
  rw [if_pos (by rcases hmiss with h1 | h1 <;> simp [h1])]
  rw [h]

theorem processItemCore_meta_error (env : Env) (ids : List Nat) (force dry : Bool)
    (tick : Nat) (p : Product) (td : TitleSlugData) (e : String)
    (htd : env.titleSlug p.name p.category = .ok td)
    (hmiss : metaGet p.meta_data "_yoast_wpseo_metadesc" = "" ∨
      metaGet p.meta_data "_yoast_wpseo_focuskw" = "")
    (h : env.metaFromTitle td.title = .error e) :
    (processItemCore env ids force dry tick p).2 = none := by
  unfold processItemCore
  split
  · rfl
  · rw [htd]
    dsimp only
    split
    · exact itemMetaPhase_meta_error env dry tick p td e hmiss h
    · cases hup : env.updateProduct p.id (.initialNameSlug td.title td.slug) with
      | error e2 => rfl
      | ok u =>
        dsimp only
        exact itemMetaPhase_meta_error env dry tick p td e hmiss h

theorem itemSeoPhase_seo_error (env : Env) (dry : Bool) (tick : Nat) (p : Product)
    (td : TitleSlugData) (omd okw : String) (e : String)
    (h : env.seoContent td.title p.description p.category p.images = .error e) :
    (itemSeoPhase env dry tick p td omd okw).2 = none := by
  unfold itemSeoPhase
  dsimp only
  rw [h]

theorem itemMetaPhase_seo_error (env : Env) (dry : Bool) (tick : Nat) (p : Product)
    (td : TitleSlugData) (e : String)
    (h : env.seoContent td.title p.description p.category p.images = .error e) :
    (itemMetaPhase env dry tick p td).2 = none := by
  unfold itemMetaPhase
  dsimp only
  split
  · cases hmt : env.metaFromTitle td.title with
    | error e2 => rfl
    | ok md =>
      dsimp only
      exact itemSeoPhase_seo_error env dry tick p td _ _ e h
  · exact itemSeoPhase_seo_error env dry tick p td _ _ e h

theorem processItemCore_seo_error (env : Env) (ids : List Nat) (force dry : Bool)
    (tick : Nat) (p : Product) (td : TitleSlugData) (e : String)
    (htd : env.titleSlug p.name p.category = .ok td)
    (h : env.seoContent td.title p.description p.category p.images = .error e) :
    (processItemCore env ids force dry tick p).2 = none := by
  unfold processItemCore
  split
  · rfl
  · rw [htd]
    dsimp only
    split
    · exact itemMetaPhase_seo_error env dry tick p td e h
    · cases hup : env.updateProduct p.id (.initialNameSlug td.title td.slug) with
      | error e2 => rfl
      | ok u =>
        dsimp only
        exact itemMetaPhase_seo_error env dry tick p td e h

theorem itemSeoPhase_full_write_error (env : Env) (tick : Nat) (p : Product)
    (td : TitleSlugData) (omd okw : String) (sc : SeoContent) (e : String)
    (hseo : env.seoContent td.title p.description p.category p.images = .ok sc)
    (h : env.updateProduct p.id (.full (fullUpdateData p td sc)) = .error e) :
    (itemSeoPhase env false tick p td omd okw).2 = none := by
  unfold itemSeoPhase
  dsimp only
  rw [hseo]
  dsimp only
  simp only [Bool.false_eq_true, if_false]
  rw [h]

theorem itemMetaPhase_full_write_error (env : Env) (tick : Nat) (p : Product)
    (td : TitleSlugData) (sc : SeoContent) (e : String)
    (hseo : env.seoContent td.title p.description p.category p.images = .ok sc)
    (h : env.updateProduct p.id (.full (fullUpdateData p td sc)) = .error e) :
    (itemMetaPhase env false tick p td).2 = none := by
  unfold itemMetaPhase
  dsimp only
  split
  · cases hmt : env.metaFromTitle td.title with
    | error e2 => rfl
    | ok md =>
      dsimp only
      exact itemSeoPhase_full_write_error env tick p td _ _ sc e hseo h
  · exact itemSeoPhase_full_write_error env tick p td _ _ sc e hseo h

theorem processItemCore_full_write_error (env : Env) (ids : List Nat) (force : Bool)
    (tick : Nat) (p : Product) (td : TitleSlugData) (sc : SeoContent) (e : String)
    (htd : env.titleSlug p.name p.category = .ok td)
    (hseo : env.seoContent td.title p.description p.category p.images = .ok sc)
    (h : env.updateProduct p.id (.full (fullUpdateData p td sc)) = .error e) :
    (processItemCore env ids force false tick p).2 = none := by
  unfold processItemCore
  split
  · rfl
  · rw [htd]
    dsimp only
    simp only [Bool.false_eq_true, if_false]
    cases hup : env.updateProduct p.id (.initialNameSlug td.title td.slug) with
    | error e2 => rfl
    | ok u =>
      dsimp only
      exact itemMetaPhase_full_write_error env tick p td sc e hseo h

theorem itemSeoPhase_dry_calls (env : Env) (tick : Nat) (p : Product) (td : TitleSlugData)
    (omd okw : String) :
    (itemSeoPhase env true tick p td omd okw).1 =
      [ExtCall.seoContent td.title p.description p.category p.images] := by
  unfold itemSeoPhase
  dsimp only
  cases hseo : env.seoContent td.title p.description p.category p.images with
  | error e => rfl
  | ok sc => rfl

theorem itemMetaPhase_dry_calls (env : Env) (tick : Nat) (p : Product) (td : TitleSlugData) :
    ((itemMetaPhase env true tick p td).1.all fun c => !c.isUpdate) = true := by
  unfold itemMetaPhase
  dsimp only
  split
  · cases hmt : env.metaFromTitle td.title with
    | error e => simp [ExtCall.isUpdate]
    | ok md =>
      dsimp only
      simp [itemSeoPhase_dry_calls, ExtCall.isUpdate]
  · simp [itemSeoPhase_dry_calls, ExtCall.isUpdate]

theorem processItemCore_dry_calls (env : Env) (ids : List Nat) (force : Bool) (tick : Nat)
    (p : Product) :
    ((processItemCore env ids force true tick p).1.all fun c => !c.isUpdate) = true := by
  unfold processItemCore
  split
  · simp
  · cases hts : env.titleSlug p.name p.category with
    | error e => simp [ExtCall.isUpdate]
    | ok td =>
      dsimp only
      simp only [if_pos, List.all_cons, Bool.and_eq_true]
      exact ⟨by simp [ExtCall.isUpdate], itemMetaPhase_dry_calls env tick p td⟩

theorem processList_shape (env : Env) (ids : List Nat) (force dry : Bool) (limit : Nat) :
    ∀ (ps : List Product) (n : Nat) (st : RunState),
      (∃ t, (processList env ids force dry limit ps n st).1.ledger = st.ledger ++ t ∧
        ∀ r ∈ t, ∃ p ∈ ps, ∃ tick,
          (processItemCore env ids force dry tick p).2 = some r) ∧
      ∀ c ∈ (processList env ids force dry limit ps n st).2.1, ∃ p ∈ ps, ∃ tick,
        c ∈ (processItemCore env ids force dry tick p).1
  | [], n, st => by
    refine ⟨⟨[], by simp [processList], by simp⟩, ?_⟩
    intro c hc
    simp [processList] at hc
  | p :: ps, n, st => by
    unfold processList
    dsimp only
    split
    · refine ⟨⟨[], by simp, by simp⟩, ?_⟩
      intro c hc
      simp at hc
    · cases hpr : (processItemCore env ids force dry st.tick p).2 with
      | none =>
        simp only [hpr]
        obtain ⟨⟨t, ht, htmem⟩, hcalls⟩ := processList_shape env ids force dry limit ps n st
        refine ⟨⟨t, ht, ?_⟩, ?_⟩
        · intro r hr
          obtain ⟨q, hq, tick, hqr⟩ := htmem r hr
          exact ⟨q, by simp [hq], tick, hqr⟩
        · intro c hc
          rcases List.mem_append.1 hc with hc1 | hc2
          · exact ⟨p, by simp, st.tick, hc1⟩
          · obtain ⟨q, hq, tick, hqc⟩ := hcalls c hc2
            exact ⟨q, by simp [hq], tick, hqc⟩
      | some result =>
        simp only [hpr]
        obtain ⟨⟨t, ht, htmem⟩, hcalls⟩ :=
          processList_shape env ids force dry limit ps (n + 1) ⟨st.ledger ++ [result], st.tick + 1⟩
        refine ⟨⟨result :: t, ?_, ?_⟩, ?_⟩
        · rw [ht]
          simp
        · intro r hr
          rcases List.mem_cons.1 hr with rfl | hr2
          · exact ⟨p, by simp, st.tick, hpr⟩
          · obtain ⟨q, hq, tick, hqr⟩ := htmem r hr2
            exact ⟨q, by simp [hq], tick, hqr⟩
        · intro c hc
          rcases List.mem_append.1 hc with hc1 | hc2
          · exact ⟨p, by simp, st.tick, hc1⟩
          · obtain ⟨q, hq, tick, hqc⟩ := hcalls c hc2
            exact ⟨q, by simp [hq], tick, hqc⟩

theorem runLoop_shape (env : Env) (ids : List Nat) (force dry : Bool) (limit : Nat) :
    ∀ (fuel page n : Nat) (st : RunState),
      (∃ t, (runLoop env ids force dry limit fuel page n st).1.ledger = st.ledger ++ t ∧
        ∀ r ∈ t, ∃ p, ∃ tick, (processItemCore env ids force dry tick p).2 = some r) ∧
      ∀ c ∈ (runLoop env ids force dry limit fuel page n st).2.1, ∃ p, ∃ tick,
        c ∈ (processItemCore env ids force dry tick p).1
  | 0, _, n, st => by
    refine ⟨⟨[], by simp [runLoop], by simp⟩, ?_⟩
    intro c hc
    simp [runLoop] at hc
  | fuel + 1, page, n, st => by
    unfold runLoop
    dsimp only
    split
    · refine ⟨⟨[], by simp, by simp⟩, ?_⟩
      intro c hc
      simp at hc
    · cases hfp : env.fetchPage page with
      | error e =>
        simp only [hfp]
        refine ⟨⟨[], by simp, by simp⟩, ?_⟩
        intro c hc
        simp at hc
      | ok products =>
        simp only [hfp]
        split
        · refine ⟨⟨[], by simp, by simp⟩, ?_⟩
          intro c hc
          simp at hc
        · obtain ⟨⟨t1, ht1, ht1mem⟩, hcalls1⟩ :=
            processList_shape env ids force dry limit products n st
          split
          · refine ⟨⟨t1, ht1, ?_⟩, ?_⟩
            · intro r hr
              obtain ⟨q, _, tick, hqr⟩ := ht1mem r hr
              exact ⟨q, tick, hqr⟩
            · intro c hc
              obtain ⟨q, _, tick, hqc⟩ := hcalls1 c hc
              exact ⟨q, tick, hqc⟩
          · obtain ⟨⟨t2, ht2, ht2mem⟩, hcalls2⟩ :=
              runLoop_shape env ids force dry limit fuel (page + 1)
                (processList env ids force dry limit products n st).2.2
                (processList env ids force dry limit products n st).1
            refine ⟨⟨t1 ++ t2, ?_, ?_⟩, ?_⟩
            · rw [ht2, ht1]
              simp
            · intro r hr
              rcases List.mem_append.1 hr with hr1 | hr2
              · obtain ⟨q, _, tick, hqr⟩ := ht1mem r hr1
                exact ⟨q, tick, hqr⟩
              · obtain ⟨q, tick, hqr⟩ := ht2mem r hr2
                exact ⟨q, tick, hqr⟩
            · intro c hc
              rcases List.mem_append.1 hc with hc1 | hc2
              · obtain ⟨q, _, tick, hqc⟩ := hcalls1 c hc1
                exact ⟨q, tick, hqc⟩
              · obtain ⟨q, tick, hqc⟩ := hcalls2 c hc2
                exact ⟨q, tick, hqc⟩

theorem processList_cons (env : Env) (ids : List Nat) (force dry : Bool) (limit : Nat)
    (p : Product) (ps : List Product) (n : Nat) (st : RunState) :
    processList env ids force dry limit (p :: ps) n st =
      if limit ≤ n then (st, [], n)
      else
        match (processItemCore env ids force dry st.tick p).2 with
        | none =>
          ((processList env ids force dry limit ps n st).1,
            (processItemCore env ids force dry st.tick p).1 ++
              (processList env ids force dry limit ps n st).2.1,
            (processList env ids force dry limit ps n st).2.2)
        | some result =>
          ((processList env ids force dry limit ps (n + 1)
              ⟨st.ledger ++ [result], st.tick + 1⟩).1,
            (processItemCore env ids force dry st.tick p).1 ++
              (processList env ids force dry limit ps (n + 1)
                ⟨st.ledger ++ [result], st.tick + 1⟩).2.1,
            (processList env ids force dry limit ps (n + 1)
              ⟨st.ledger ++ [result], st.tick + 1⟩).2.2) := rfl

theorem processList_limit (env : Env) (ids : List Nat) (force dry : Bool) (limit : Nat)
    (ps : List Product) (n : Nat) (st : RunState) (h : limit ≤ n) :
    processList env ids force dry limit ps n st = (st, [], n) := by
  cases ps with
  | nil => rfl
  | cons p ps => rw [processList_cons, if_pos h]

/-! ## Claim theorems -/

/-- Claim C7 (confirmed).  For every sequence of results appended to the
Ledger and persisted, reloading from the persisted file yields exactly the
same results — same count, identical field values, original relative
(timestamp) order: `load_history` is a left inverse of `save_history` on
every history whose timestamps are well-formed datetimes. -/
theorem ledger_roundtrip (l : List OptimizationResult)
    (h : ∀ r ∈ l, validDT r.timestamp) :
    load_history (save_history l) = l := by
  simp [load_history, decodeAll_save l h]

theorem ledger_roundtrip_witness :
    (∀ r ∈ [sampleResult 1 "success" ⟨2025, 1, 2, 3, 4, 5, 6⟩,
            sampleResult 2 "preview" ⟨2025, 1, 2, 3, 4, 6, 0⟩], validDT r.timestamp) ∧
    load_history (save_history [sampleResult 1 "success" ⟨2025, 1, 2, 3, 4, 5, 6⟩,
        sampleResult 2 "preview" ⟨2025, 1, 2, 3, 4, 6, 0⟩]) =
      [sampleResult 1 "success" ⟨2025, 1, 2, 3, 4, 5, 6⟩,
       sampleResult 2 "preview" ⟨2025, 1, 2, 3, 4, 6, 0⟩] :=
  ⟨by decide, ledger_roundtrip _ (by decide)⟩

/-- Claim C5 (confirmed).  The keyword suggestion operation is a total
function (it never raises): when the trend lookup fails — its outcome,
including a raised exception, is the `Except`-valued argument — the result
is exactly the deterministic heuristic keyword list, and likewise when the
trend lookup yields no candidates. -/
theorem keyword_suggestions_never_raise :
    (∀ (e title : String) (category : Option String),
      get_keyword_suggestions (Except.error e) title category =
        extract_basic_keywords title category) ∧
    (∀ (title : String) (category : Option String),
      get_keyword_suggestions (Except.ok []) title category =
        extract_basic_keywords title category) := by
  constructor
  · intro e title category
    rfl
  · intro title category
    rfl

/-- Claim C4 (confirmed).  A cache entry under the looked-up key is served
directly (same candidate list, no external query, cache unchanged) exactly
when it is strictly less than 7 days old; a stale entry behaves as absent
and triggers a fresh trend lookup. -/
theorem trend_cache_freshness (env : TrendEnv) (cache : List (String × TrendCacheEntry))
    (country name : String) (category : Option String) (now : Nat) (entry : TrendCacheEntry)
    (h : List.lookup (trendCacheKey name category country) cache = some entry) :
    (now - entry.timestamp < sevenDays →
      get_trending_keywords env cache country name category now =
        ⟨entry.keywords, false, cache⟩) ∧
    (¬ now - entry.timestamp < sevenDays →
      (get_trending_keywords env cache country name category now).queried = true) := by
  constructor
  · intro hfresh
    unfold get_trending_keywords
    simp only [h]
    rw [if_pos hfresh]
  · intro hstale
    unfold get_trending_keywords
    simp only [h]
    rw [if_neg hstale]
    unfold get_trending_keywords.trendQuery
    dsimp only
    cases hrq : env.relatedQueries (pySplit (pyLower name) ++
        (if catTruthy category then pySplit (pyLower (catStr category)) else [])) with
    | error e => rfl
    | ok rq => rfl

theorem trend_cache_freshness_witness :
    (List.lookup (trendCacheKey "shoes" none "ALL") shoesCache =
      some ⟨[⟨"running shoes", 80, "top"⟩], 0⟩) ∧
    (6 * 86400 - 0 < sevenDays ∧
      get_trending_keywords downTrendEnv shoesCache "ALL" "shoes" none (6 * 86400) =
        ⟨[⟨"running shoes", 80, "top"⟩], false, shoesCache⟩) ∧
    (¬ 8 * 86400 - 0 < sevenDays ∧
      (get_trending_keywords downTrendEnv shoesCache "ALL" "shoes" none (8 * 86400)).queried =
        true) :=
  ⟨by decide,
   ⟨by decide,
    (trend_cache_freshness downTrendEnv shoesCache "ALL" "shoes" none (6 * 86400)
      ⟨[⟨"running shoes", 80, "top"⟩], 0⟩ (by decide)).1 (by decide)⟩,
   ⟨by decide,
    (trend_cache_freshness downTrendEnv shoesCache "ALL" "shoes" none (8 * 86400)
      ⟨[⟨"running shoes", 80, "top"⟩], 0⟩ (by decide)).2 (by decide)⟩⟩

/-- Claim C3 (confirmed).  For every title, image list and variant mapping,
the gallery generator emits, at 0-based position `i` (ordinal `i + 1`):
the bare title and "title - Main Product Image" for the first image; for a
later ordinal whose variant at index `ordinal - 1` carries a nonempty color
and/or size, "title color size" (resp. the single present part) as alt and
"title - color size" as image title; and the bare title with
"title - Gallery Image ordinal" when no variant part is present. -/
theorem gallery_alt_title_mapping (title : String) (images : List Image)
    (variants : List (String × VariantInfo)) (i : Nat) (hi : i < images.length) :
    (i = 0 → (generate_gallery_alt_tags title images variants).get? i =
      some ("1", ⟨title, title ++ " - Main Product Image"⟩)) ∧
    (0 < i →
      (((List.lookup (toString i) variants).getD ⟨"", ""⟩).color ≠ "" →
        ((List.lookup (toString i) variants).getD ⟨"", ""⟩).size ≠ "" →
        (generate_gallery_alt_tags title images variants).get? i =
          some (toString (i + 1),
            ⟨title ++ " " ++ ((List.lookup (toString i) variants).getD ⟨"", ""⟩).color ++ " " ++
              ((List.lookup (toString i) variants).getD ⟨"", ""⟩).size,
             title ++ " - " ++ ((List.lookup (toString i) variants).getD ⟨"", ""⟩).color ++
              " " ++ ((List.lookup (toString i) variants).getD ⟨"", ""⟩).size⟩)) ∧
      (((List.lookup (toString i) variants).getD ⟨"", ""⟩).color ≠ "" →
        ((List.lookup (toString i) variants).getD ⟨"", ""⟩).size = "" →
        (generate_gallery_alt_tags title images variants).get? i =
          some (toString (i + 1),
            ⟨title ++ " " ++ ((List.lookup (toString i) variants).getD ⟨"", ""⟩).color,
             title ++ " - " ++ ((List.lookup (toString i) variants).getD ⟨"", ""⟩).color⟩)) ∧
      (((List.lookup (toString i) variants).getD ⟨"", ""⟩).color = "" →
        ((List.lookup (toString i) variants).getD ⟨"", ""⟩).size ≠ "" →
        (generate_gallery_alt_tags title images variants).get? i =
          some (toString (i + 1),
            ⟨title ++ " " ++ ((List.lookup (toString i) variants).getD ⟨"", ""⟩).size,
             title ++ " - " ++ ((List.lookup (toString i) variants).getD ⟨"", ""⟩).size⟩)) ∧
      (((List.lookup (toString i) variants).getD ⟨"", ""⟩).color = "" →
        ((List.lookup (toString i) variants).getD ⟨"", ""⟩).size = "" →
        (generate_gallery_alt_tags title images variants).get? i =
          some (toString (i + 1),
            ⟨title, title ++ " - Gallery Image " ++ toString (i + 1)⟩))) := by
  have hbase : (generate_gallery_alt_tags title images variants).get? i =
      some (toString (i + 1), galleryText title variants (i + 1)) := by
    unfold generate_gallery_alt_tags
    rw [List.get?_map, List.get?_range hi]
    rfl
  constructor
  · intro h0
    subst h0
    have h1 : toString (0 + 1) = "1" := by decide
    rw [hbase, h1]
    simp [galleryText]
  · intro hpos
    have hne1 : ¬(i + 1 = 1) := by omega
    refine ⟨?_, ?_, ?_, ?_⟩ <;> intro hc hs <;> rw [hbase] <;>
      simp [galleryText, hne1, hc, hs, joinSpace, String.append_assoc]

theorem gallery_alt_title_mapping_witness :
    (generate_gallery_alt_tags "Blue Hoodie" bhImages bhVariants).get? 0 =
      some ("1", ⟨"Blue Hoodie", "Blue Hoodie - Main Product Image"⟩) ∧
    (generate_gallery_alt_tags "Blue Hoodie" bhImages bhVariants).get? 1 =
      some ("2", ⟨"Blue Hoodie Blue M", "Blue Hoodie - Blue M"⟩) ∧
    (generate_gallery_alt_tags "Blue Hoodie" bhImages bhVariants).get? 2 =
      some ("3", ⟨"Blue Hoodie", "Blue Hoodie - Gallery Image 3"⟩) := by
  refine ⟨?_, ?_, ?_⟩
  · exact (gallery_alt_title_mapping "Blue Hoodie" bhImages bhVariants 0 (by decide)).1 rfl
  · exact ((gallery_alt_title_mapping "Blue Hoodie" bhImages bhVariants 1
      (by decide)).2 (by decide)).1 (by decide) (by decide)
  · exact ((gallery_alt_title_mapping "Blue Hoodie" bhImages bhVariants 2
      (by decide)).2 (by decide)).2.2.2 (by decide) (by decide)

/-- Claim C6 (confirmed).  A dry run never invokes the catalog update
endpoint (no `update` call appears in the run's external-call log), and
every result recorded during the run carries status "preview". -/
theorem dry_run_frame (env : Env) (fuel : Nat) (history : List OptimizationResult)
    (max_products : Option Nat) (start_page : Nat) (force : Bool) :
    ((process_optimization env fuel history max_products start_page force true).calls.all
      fun c => !c.isUpdate) = true ∧
    ∃ t, (process_optimization env fuel history max_products start_page force true).state.ledger =
        history ++ t ∧ (t.all fun r => r.status == "preview") = true := by
  unfold process_optimization
  dsimp only
  obtain ⟨⟨t, ht, htmem⟩, hcalls⟩ := runLoop_shape env
    (if force then [] else get_processed_ids history) force true
    (productLimit max_products) fuel start_page 0 ⟨history, 0⟩
  constructor
  · apply List.all_eq_true.2
    intro c hc
    obtain ⟨p, tick, hcp⟩ := hcalls c hc
    exact List.all_eq_true.1 (processItemCore_dry_calls env _ force tick p) c hcp
  · refine ⟨t, ht, ?_⟩
    apply List.all_eq_true.2
    intro r hr
    obtain ⟨p, tick, hpr⟩ := htmem r hr
    have hst := (processItemCore_some env _ force true tick p r hpr).2.1
    simp at hst
    simp [hst]

/-- Claim C8 (confirmed).  Whatever ends the run — the item cap, an empty
page, or a page-fetch exception — `process_optimization` returns the full
current Ledger contents (`get_results` of the final ledger, a permutation
of it), and the final ledger extends the prior history, so results recorded
before an early termination are intact and included. -/
theorem run_returns_full_ledger (env : Env) (fuel : Nat) (history : List OptimizationResult)
    (max_products : Option Nat) (start_page : Nat) (force dry : Bool) :
    (process_optimization env fuel history max_products start_page force dry).returned =
      get_results
        (process_optimization env fuel history max_products start_page force dry).state.ledger ∧
    (∃ t, (process_optimization env fuel history max_products start_page force dry).state.ledger =
      history ++ t) ∧
    ((process_optimization env fuel history max_products start_page force dry).returned).Perm
      (process_optimization env fuel history max_products start_page force dry).state.ledger := by
  refine ⟨rfl, ?_, ?_⟩
  · unfold process_optimization
    dsimp only
    obtain ⟨⟨t, ht, _⟩, _⟩ := runLoop_shape env
      (if force then [] else get_processed_ids history) force dry
      (productLimit max_products) fuel start_page 0 ⟨history, 0⟩
    exact ⟨t, ht⟩
  · unfold process_optimization get_results
    dsimp only
    exact List.perm_insertionSort _ _

/-- Claim C2 (confirmed).  An item whose identifier is in the prior-processed
set is skipped by a force-update=false run — no external call is made for it
and no result is appended (run-wide, every newly appended result's id is
outside the prior-processed set) — while a force-update=true run proceeds to
process every item, issuing its title/slug generation call. -/
theorem force_update_skip_policy :
    (∀ (env : Env) (ids : List Nat) (dry : Bool) (tick : Nat) (p : Product),
      p.id ∈ ids → processItemCore env ids false dry tick p = ([], none)) ∧
    (∀ (env : Env) (ids : List Nat) (dry : Bool) (tick : Nat) (p : Product),
      ∃ rest, (processItemCore env ids true dry tick p).1 =
        ExtCall.titleSlug p.name p.category :: rest) ∧
    (∀ (env : Env) (fuel : Nat) (history : List OptimizationResult) (max_products : Option Nat)
      (start_page : Nat) (dry : Bool) (r : OptimizationResult),
      r ∈ (process_optimization env fuel history max_products start_page false dry).state.ledger →
      r ∈ history ∨ r.product_id ∉ get_processed_ids history) := by
  refine ⟨processItemCore_skip, processItemCore_force_titleSlug, ?_⟩
  intro env fuel history max_products start_page dry r hr
  unfold process_optimization at hr
  simp only [Bool.false_eq_true, if_false] at hr
  obtain ⟨⟨t, ht, htmem⟩, _⟩ := runLoop_shape env (get_processed_ids history) false dry
    (productLimit max_products) fuel start_page 0 ⟨history, 0⟩
  rw [ht] at hr
  rcases List.mem_append.1 hr with hr1 | hr2
  · exact Or.inl hr1
  · obtain ⟨p, tick, hpr⟩ := htmem r hr2
    have hsome := processItemCore_some env _ false dry tick p r hpr
    right
    rw [hsome.1]
    exact hsome.2.2.2 rfl

theorem force_update_skip_policy_witness :
    processItemCore stubEnv [7] false true 0 (plainProduct 7 "Widget") = ([], none) ∧
    (∃ rest, (processItemCore stubEnv [7] true true 0 (plainProduct 7 "Widget")).1 =
      ExtCall.titleSlug "Widget" "" :: rest) ∧
    (sampleResult 9 "success" ⟨2025, 1, 1, 0, 0, 0, 0⟩ ∈
        [sampleResult 9 "success" ⟨2025, 1, 1, 0, 0, 0, 0⟩] ∨
      (sampleResult 9 "success" ⟨2025, 1, 1, 0, 0, 0, 0⟩).product_id ∉
        get_processed_ids [sampleResult 9 "success" ⟨2025, 1, 1, 0, 0, 0, 0⟩]) :=
  ⟨force_update_skip_policy.1 stubEnv [7] true 0 (plainProduct 7 "Widget") (by decide),
   force_update_skip_policy.2.1 stubEnv [7] true 0 (plainProduct 7 "Widget"),
   force_update_skip_policy.2.2 stubEnv 3
     [sampleResult 9 "success" ⟨2025, 1, 1, 0, 0, 0, 0⟩] (some 5) 1 true
     (sampleResult 9 "success" ⟨2025, 1, 1, 0, 0, 0, 0⟩) (by decide)⟩

/-- Claim C10 (confirmed).  The processed-ids set contains the product id of
every recorded result irrespective of its status, and any id in that set is
skipped (no calls, no result) by a force-update=false item decision — so
"preview" and "error" entries suppress reprocessing exactly like "success"
ones. -/
theorem processed_ids_status_blind :
    (∀ (history : List OptimizationResult) (r : OptimizationResult),
      r ∈ history → r.product_id ∈ get_processed_ids history) ∧
    (∀ (env : Env) (history : List OptimizationResult) (dry : Bool) (tick : Nat) (p : Product),
      p.id ∈ get_processed_ids history →
      processItemCore env (get_processed_ids history) false dry tick p = ([], none)) := by
  constructor
  · intro history r hr
    simp only [get_processed_ids, List.mem_map]
    exact ⟨r, hr, rfl⟩
  · intro env history dry tick p hp
    exact processItemCore_skip env _ dry tick p hp

theorem processed_ids_status_blind_witness :
    ((sampleResult 3 "preview" ⟨2025, 1, 1, 0, 0, 0, 0⟩).product_id ∈
      get_processed_ids previewErrorHistory) ∧
    processItemCore stubEnv (get_processed_ids previewErrorHistory) false false 0
      (plainProduct 3 "Widget") = ([], none) ∧
    processItemCore stubEnv (get_processed_ids previewErrorHistory) false false 0
      (plainProduct 4 "Gadget") = ([], none) :=
  ⟨processed_ids_status_blind.1 previewErrorHistory _ (by decide),
   processed_ids_status_blind.2 stubEnv previewErrorHistory false 0
     (plainProduct 3 "Widget") (by decide),
   processed_ids_status_blind.2 stubEnv previewErrorHistory false 0
     (plainProduct 4 "Gadget") (by decide)⟩

/-- Claim C1 counterexample.  In the 3-item page of `c1Env`, where only item
2's title/slug generation call raises, the run records results for items 1
and 3 only: the final ledger is `[(1, "preview"), (3, "preview")]` by id and
status, so no `OptimizationResult` at all — in particular none with an
"error" status — is appended for item 2, contradicting the claim. -/
theorem item_error_appends_error_result_cex :
    ((process_optimization c1Env 5 [] (some 10) 1 false true).state.ledger.map
      fun r => (r.product_id, r.status)) = [(1, "preview"), (3, "preview")] := by
  rfl

/-- Claim C1 (corrected).  When any per-item processing step raises —
title/slug generation, the immediate title/slug write, meta-from-title
generation, SEO-content generation, or the full catalog update — the
exception is caught at the item boundary and the item yields NO result (the
`except` block only logs and `continue`s — it never records an "error"
status); and whenever an item yields no result, the loop's ledger state and
processed count continue exactly as in the same run without that item. -/
theorem item_error_isolation :
    (∀ (env : Env) (ids : List Nat) (force dry : Bool) (tick : Nat) (p : Product) (e : String),
      env.titleSlug p.name p.category = .error e →
      (processItemCore env ids force dry tick p).2 = none) ∧
    (∀ (env : Env) (ids : List Nat) (force : Bool) (tick : Nat) (p : Product)
      (td : TitleSlugData) (e : String),
      env.titleSlug p.name p.category = .ok td →
      env.updateProduct p.id (.initialNameSlug td.title td.slug) = .error e →
      (processItemCore env ids force false tick p).2 = none) ∧
    (∀ (env : Env) (ids : List Nat) (force dry : Bool) (tick : Nat) (p : Product)
      (td : TitleSlugData) (e : String),
      env.titleSlug p.name p.category = .ok td →
      (metaGet p.meta_data "_yoast_wpseo_metadesc" = "" ∨
        metaGet p.meta_data "_yoast_wpseo_focuskw" = "") →
      env.metaFromTitle td.title = .error e →
      (processItemCore env ids force dry tick p).2 = none) ∧
    (∀ (env : Env) (ids : List Nat) (force dry : Bool) (tick : Nat) (p : Product)
      (td : TitleSlugData) (e : String),
      env.titleSlug p.name p.category = .ok td →
      env.seoContent td.title p.description p.category p.images = .error e →
      (processItemCore env ids force dry tick p).2 = none) ∧
    (∀ (env : Env) (ids : List Nat) (force : Bool) (tick : Nat) (p : Product)
      (td : TitleSlugData) (sc : SeoContent) (e : String),
      env.titleSlug p.name p.category = .ok td →
      env.seoContent td.title p.description p.category p.images = .ok sc →
      env.updateProduct p.id (.full (fullUpdateData p td sc)) = .error e →
      (processItemCore env ids force false tick p).2 = none) ∧
    (∀ (env : Env) (ids : List Nat) (force dry : Bool) (limit : Nat) (p : Product)
      (ps : List Product) (n : Nat) (st : RunState),
      (processItemCore env ids force dry st.tick p).2 = none →
      (processList env ids force dry limit (p :: ps) n st).1 =
        (processList env ids force dry limit ps n st).1 ∧
      (processList env ids force dry limit (p :: ps) n st).2.2 =
        (processList env ids force dry limit ps n st).2.2) := by
  refine ⟨processItemCore_titleSlug_error, processItemCore_initial_write_error,
    processItemCore_meta_error, processItemCore_seo_error, processItemCore_full_write_error,
    ?_⟩
  intro env ids force dry limit p ps n st hnone
  constructor <;>
    · rw [processList_cons]
      by_cases hlim : limit ≤ n
      · rw [if_pos hlim, processList_limit env ids force dry limit ps n st hlim]
      · rw [if_neg hlim]
        simp only [hnone]

theorem item_error_isolation_witness :
    (processItemCore c1Env [] false true 0 (plainProduct 2 "P2")).2 = none ∧
    (processItemCore initWriteDownEnv [] false false 0 (plainProduct 5 "W")).2 = none ∧
    (processItemCore metaDownEnv [] false true 0 (plainProduct 6 "M")).2 = none ∧
    (processItemCore seoDownEnv [] false true 0 (plainProduct 7 "S")).2 = none ∧
    (processItemCore fullWriteDownEnv [] false false 0 (plainProduct 8 "F")).2 = none ∧
    (processList c1Env [] false true 10
        [plainProduct 2 "P2", plainProduct 3 "P3"] 1 ⟨[], 0⟩).1 =
      (processList c1Env [] false true 10 [plainProduct 3 "P3"] 1 ⟨[], 0⟩).1 ∧
    (processList c1Env [] false true 10
        [plainProduct 2 "P2", plainProduct 3 "P3"] 1 ⟨[], 0⟩).2.2 =
      (processList c1Env [] false true 10 [plainProduct 3 "P3"] 1 ⟨[], 0⟩).2.2 :=
  ⟨item_error_isolation.1 c1Env [] false true 0 (plainProduct 2 "P2") "boom" rfl,
   item_error_isolation.2.1 initWriteDownEnv [] false 0 (plainProduct 5 "W")
     ⟨"T", "t", "r"⟩ "503" rfl rfl,
   item_error_isolation.2.2.1 metaDownEnv [] false true 0 (plainProduct 6 "M")
     ⟨"T", "t", "r"⟩ "rate limited" rfl (Or.inl rfl) rfl,
   item_error_isolation.2.2.2.1 seoDownEnv [] false true 0 (plainProduct 7 "S")
     ⟨"T", "t", "r"⟩ "rate limited" rfl rfl,
   item_error_isolation.2.2.2.2.1 fullWriteDownEnv [] false 0 (plainProduct 8 "F")
     ⟨"T", "t", "r"⟩ ⟨"kw1,kw2", "meta", "desc", []⟩ "503" rfl rfl rfl,
   (item_error_isolation.2.2.2.2.2 c1Env [] false true 10 (plainProduct 2 "P2")
     [plainProduct 3 "P3"] 1 ⟨[], 0⟩
     (item_error_isolation.1 c1Env [] false true 0 (plainProduct 2 "P2") "boom" rfl)).1,
   (item_error_isolation.2.2.2.2.2 c1Env [] false true 10 (plainProduct 2 "P2")
     [plainProduct 3 "P3"] 1 ⟨[], 0⟩
     (item_error_isolation.1 c1Env [] false true 0 (plainProduct 2 "P2") "boom" rfl)).2⟩

/-- Claim C9 counterexample.  Against the never-exhausted catalog `c9Env`
(every page holds one fresh item), a run with `max_products = none` stops
after exactly 10 items even though page 11 is nonempty — the same
environment yields 30 items when the cap is passed explicitly — so a nil
maximum is not unbounded processing until exhaustion. -/
theorem nil_max_products_unbounded_cex :
    (process_optimization c9Env 30 [] none 1 false true).state.ledger.length = 10 ∧
    c9Env.fetchPage 11 = .ok [plainProduct 111 "Q11"] ∧
    (process_optimization c9Env 40 [] (some 30) 1 false true).state.ledger.length = 30 := by
  refine ⟨by rfl, by rfl, by rfl⟩

/-- Claim C9 (corrected).  A nil (unspecified) maximum-item count does not
make the run unbounded: `PRODUCT_LIMIT = max_products or 10` substitutes the
default cap 10, so the run behaves exactly as if `max_products = 10` had
been passed. -/
theorem nil_max_products_defaults_to_ten (env : Env) (fuel : Nat)
    (history : List OptimizationResult) (start_page : Nat) (force dry : Bool) :
    process_optimization env fuel history none start_page force dry =
      process_optimization env fuel history (some 10) start_page force dry := rfl

end WooSeo
